import Mathlib

/-!
Shallow embedding of the Corsi block-tapping application
(`src/Final_Corsi_OOP.py`).  Python floats are modelled as exact rationals
(`ℚ`), Python ints as `ℤ`.  Python's `round(x, 2)` is modelled as rounding
half-up to two decimals (it agrees with the float implementation away from
exact ties, and no value in this development sits on a tie).  `math.sqrt`
followed by `round(_, 2)` is modelled exactly over `ℚ` (`round2sqrt` below):
for `q ≥ 0`, `⌊100·√q + 1/2⌋ = ⌊(⌊√(40000·q)⌋ + 1)/2⌋` and
`⌊√(40000·q)⌋ = Nat.sqrt ⌊40000·q⌋` since squares of integers compare with a
real exactly as with its floor.  The pygame rendering, event polling, fonts
and CSV plumbing are outside the model; each handler is embedded as a pure
function from the application state (and the event data it reads) to the new
state.  The unbounded `while` loop of `generate_boxes` is embedded with
explicit fuel (`none` = the loop has not terminated within `fuel` samples),
and `random.randint(a, b)` is fed from an explicit stream of raw draws,
reduced into `[a, b]` by a modulus, which is exactly the guarantee the
library call provides.
-/

namespace Corsi

/-- Model of Python `round(q, 2)`: round to the nearest multiple of 1/100,
half-up.  (CPython rounds floats half-to-even; the two agree except on exact
ties, which do not occur at any input considered here.) -/
def round2 (q : ℚ) : ℚ := (⌊q * 100 + 1 / 2⌋ : ℤ) / 100

/-- Model of Python `round(sqrt(q), 2)` for `q ≥ 0` (used on the variance,
which is a sum of squares, hence nonnegative):
`⌊100·√q + 1/2⌋ / 100 = ⌊(⌊√(40000·q)⌋ + 1) / 2⌋ / 100`, and the inner floor
of the real square root of the rational `40000·q` equals
`Nat.sqrt ⌊40000·q⌋`. -/
def round2sqrt (q : ℚ) : ℚ :=
  ((((Nat.sqrt (⌊40000 * q⌋).toNat : ℤ) + 1) / 2 : ℤ) : ℚ) / 100

/-- Embedding of class `Participant` (its data attributes). -/
structure Participant where
  participant_id : ℤ
  current_trial : ℤ
  corsi_spans : List ℤ
  corsi_span : ℤ
  clicks : ℤ
  errors : ℤ
  mean_corsi_span : ℚ
  std_corsi_span : ℚ
  deriving DecidableEq, Repr

/-- Model of `Participant.__init__`: trial counter 1, empty history, span 2,
no clicks, no errors, zero statistics. -/
def Participant.init (participant_id : ℤ) : Participant where
  participant_id := participant_id
  current_trial := 1
  corsi_spans := []
  corsi_span := 2
  clicks := 0
  errors := 0
  mean_corsi_span := 0
  std_corsi_span := 0

/-- Embedding of `Participant.update_statistics`: append the current span to the history
when the history is still shorter than the trial counter, then recompute the
rounded mean and the rounded population standard deviation (the deviation is
taken from the already-rounded mean, exactly as in the source). -/
def Participant.update_statistics (p : Participant) : Participant :=
  let spans :=
    if (p.corsi_spans.length : ℤ) < p.current_trial
    then p.corsi_spans ++ [p.corsi_span]
    else p.corsi_spans
  let m := round2 ((spans.sum : ℚ) / (spans.length : ℚ))
  let s := round2sqrt (((spans.map (fun xi => ((xi : ℚ) - m) ^ 2)).sum) / (spans.length : ℚ))
  { p with corsi_spans := spans, mean_corsi_span := m, std_corsi_span := s }

/-- The application states reached through `Application.state`
(string constants in the source). -/
inductive AState where
  | Participant_ID
  | Instructions
  | ShowSequence
  | UserInput
  | Feedback
  deriving DecidableEq, Repr

/-- The dictionary of box parameters (`BOX_PARAMS` keys). -/
structure BoxParams where
  n_boxes : ℤ
  size : ℤ
  min_dist : ℚ
  t_highlight : ℚ
  margin : ℤ
  deriving DecidableEq, Repr

/-- Embedding of member class `Sequence.Box` (its data attributes; the
pygame surface/rect handles are derived from `pos` and `size`). -/
structure Box where
  pos : ℤ × ℤ
  size : ℤ
  highlight : Bool
  clicked : Bool
  correct : Bool
  deriving DecidableEq, Repr

/-- Model of `Box.__init__(pos, size)`: all flags start cleared. -/
def Box.init (pos : ℤ × ℤ) (size : ℤ) : Box where
  pos := pos
  size := size
  highlight := false
  clicked := false
  correct := false

/-- Hit test `box.rect.collidepoint(p)` for the rect produced by
`Surface((size, size)).get_rect(center=pos)`: pygame places the top-left
corner at `center - size // 2` on each axis and tests the half-open square
of side `size`. -/
def Box.rect_collidepoint (b : Box) (p : ℤ × ℤ) : Bool :=
  let left := b.pos.1 - b.size / 2
  let top := b.pos.2 - b.size / 2
  decide (left ≤ p.1 ∧ p.1 < left + b.size ∧ top ≤ p.2 ∧ p.2 < top + b.size)

/-- Embedding of `Sequence.collision_check`: the source compares
`sqrt(dx² + dy²) < min_dist`; over the reals this holds exactly when
`dx² + dy² < min_dist²` (`min_dist` is nonnegative in every configuration,
being `2.0 * BOX_SIZE`), which is the form used here to keep the test
rational-valued. -/
def collision_check (bp : BoxParams) (candidate_box box : Box) : Bool :=
  let dx : ℚ := ((candidate_box.pos.1 - box.pos.1 : ℤ) : ℚ)
  let dy : ℚ := ((candidate_box.pos.2 - box.pos.2 : ℤ) : ℚ)
  if dx ^ 2 + dy ^ 2 < bp.min_dist ^ 2 then true else false

/-- Model of `random.randint(a, b)`: a draw inside `[a, b]` (for `a ≤ b`), obtained
here by reducing a raw draw from the stream modulo the size of the range. -/
def randint (a b : ℤ) (r : ℕ) : ℤ := a + (r : ℤ) % (b - a + 1)

/-- One candidate loop of `Sequence.generate_boxes`, with explicit fuel.
`t` indexes the stream of raw random draws (one `(x, y)` pair per loop
iteration), `i` is the source's counter of accepted boxes. -/
def generate_boxes_aux (screen_size : ℤ × ℤ) (bp : BoxParams)
    (rands : ℕ → ℕ × ℕ) : ℕ → ℕ → ℤ → List Box → Option (List Box)
  | 0, _, _, _ => none
  | fuel + 1, t, i, boxes =>
    if i < bp.n_boxes then
      let random_x := randint bp.margin (screen_size.1 - bp.margin) (rands t).1
      let random_y := randint bp.margin (screen_size.2 - bp.margin) (rands t).2
      let candidate_box := Box.init (random_x, random_y) bp.size
      if boxes.any (fun box => collision_check bp candidate_box box) then
        generate_boxes_aux screen_size bp rands fuel (t + 1) i boxes
      else
        generate_boxes_aux screen_size bp rands fuel (t + 1) (i + 1)
          (boxes ++ [candidate_box])
    else some boxes

/-- Embedding of `Sequence.generate_boxes`: loop from an empty list and counter 0. -/
def generate_boxes (fuel : ℕ) (rands : ℕ → ℕ × ℕ) (screen_size : ℤ × ℤ)
    (bp : BoxParams) : Option (List Box) :=
  generate_boxes_aux screen_size bp rands fuel 0 0 []

/-- Embedding of class `Sequence` (its data attributes).  The source
initialises `length` to Python `None`; it is set before first use by
`generate`, so it is carried here simply as an integer. -/
structure SeqState where
  screen_size : ℤ × ℤ
  box_parameters : BoxParams
  length : ℤ
  highlight_box_id : ℤ
  last_box_highlighted : ℚ
  boxes : List Box
  correct : Bool
  deriving DecidableEq, Repr

/-- Embedding of `Sequence.generate(length)`: store the length, regenerate the boxes,
reset the highlight cursor.  `none` when box generation runs out of fuel. -/
def Sequence.generate (fuel : ℕ) (rands : ℕ → ℕ × ℕ) (length : ℤ)
    (s : SeqState) : Option SeqState :=
  match generate_boxes fuel rands s.screen_size s.box_parameters with
  | none => none
  | some bs => some { s with length := length, boxes := bs, highlight_box_id := 0 }

/-- Replace the box at index `i` by `f` of it (models an in-place attribute
assignment on the `i`-th box object of the list). -/
def modifyBox : List Box → ℕ → (Box → Box) → List Box
  | [], _, _ => []
  | b :: bs, 0, f => f b :: bs
  | b :: bs, n + 1, f => b :: modifyBox bs n f

/-- Embedding of `Sequence.show(trial_start, start_delay, screen)` with the wall clock
passed explicitly as `now`: the time-driven highlight advance.  Returns the
`next_state` value together with the updated sequence state (the drawing of
the boxes is outside the model). -/
def Sequence.show (s : SeqState) (trial_start start_delay now : ℚ) :
    AState × SeqState :=
  if now - trial_start > start_delay then
    if s.highlight_box_id = 0 then
      (AState.ShowSequence,
        { s with
            boxes := modifyBox s.boxes s.highlight_box_id.toNat
              (fun b => { b with highlight := true }),
            highlight_box_id := s.highlight_box_id + 1,
            last_box_highlighted := now })
    else
      if now - s.last_box_highlighted > s.box_parameters.t_highlight then
        if s.highlight_box_id < s.length then
          (AState.ShowSequence,
            { s with
                boxes := modifyBox
                  (modifyBox s.boxes (s.highlight_box_id - 1).toNat
                    (fun b => { b with highlight := false }))
                  s.highlight_box_id.toNat
                  (fun b => { b with highlight := true }),
                highlight_box_id := s.highlight_box_id + 1,
                last_box_highlighted := now })
        else
          (AState.UserInput,
            { s with
                boxes := modifyBox s.boxes (s.highlight_box_id - 1).toNat
                  (fun b => { b with highlight := false }) })
      else (AState.ShowSequence, s)
  else (AState.ShowSequence, s)

/-- Embedding of class `Application` for the in-trial states, where
`self.participant` is an existing `Participant` object (it is `None` only
before identification, which `IdState` below models). -/
structure Application where
  state : AState
  participant : Participant
  sequence : SeqState
  max_trials : ℤ
  trial_over : Bool
  max_participants : ℤ
  start_delay : ℚ
  trial_start : ℚ
  deriving DecidableEq, Repr

/-- The body of the `for box in self.sequence.boxes` loop of
`Application.handle_user_input` at index `i`: if the click position hits the
`i`-th box and it is not already marked clicked, clear every box's clicked
flag, mark this box clicked, and score it against `boxes[clicks]` (object
identity, i.e. index equality). -/
def processAt (pos : ℤ × ℤ) (i : ℕ) (g : Application) : Application :=
  match g.sequence.boxes.get? i with
  | none => g
  | some box =>
    if box.rect_collidepoint pos && !box.clicked then
      let cleared := g.sequence.boxes.map (fun box_ => { box_ with clicked := false })
      if (i : ℤ) = g.participant.clicks then
        let boxes := modifyBox cleared i
          (fun b => { b with clicked := true, correct := true })
        if g.participant.clicks = g.sequence.length - 1 then
          { g with
              sequence := { g.sequence with boxes := boxes, correct := true },
              state := AState.Feedback }
        else
          { g with
              sequence := { g.sequence with boxes := boxes },
              participant := { g.participant with clicks := g.participant.clicks + 1 } }
      else
        let boxes := modifyBox cleared i
          (fun b => { b with clicked := true, correct := false })
        { g with
            sequence := { g.sequence with boxes := boxes, correct := false },
            state := AState.Feedback,
            participant := { g.participant with errors := g.participant.errors + 1 } }
    else g

/-- Iterate `processAt` over the indices `i, i+1, …` for `fuel` steps
(the `for` loop visits each position of the box list once; `processAt`
preserves the list's length). -/
def hui_loop (pos : ℤ × ℤ) : ℕ → ℕ → Application → Application
  | 0, _, g => g
  | fuel + 1, i, g => hui_loop pos fuel (i + 1) (processAt pos i g)

/-- Embedding of `Application.handle_user_input` for a `MOUSEBUTTONUP` event whose mouse
position is `pos`. -/
def Application.handle_user_input (pos : ℤ × ℤ) (g : Application) : Application :=
  hui_loop pos g.sequence.boxes.length 0 g

/-- The tail of `Application.show_feedback`: once the message branch has
run, `update_statistics` is invoked exactly when `trial_over` is set. -/
def applyStats (g : Application) : Application :=
  if g.trial_over then { g with participant := g.participant.update_statistics } else g

/-- Embedding of `Application.show_feedback`: the three scenarios on the last sequence,
returning the updated state together with the displayed message (the
on-screen text drawing is outside the model). -/
def Application.show_feedback (g : Application) : Application × String :=
  if g.sequence.correct then
    let p := { g.participant with errors := 0, corsi_span := g.sequence.length }
    if g.sequence.length = g.sequence.box_parameters.n_boxes then
      (applyStats { g with participant := p, trial_over := true },
        "Congratulations! You won!")
    else
      (applyStats { g with participant := p }, "Great job!")
  else if g.participant.errors = 1 then
    (applyStats g, "One more try!")
  else
    (applyStats { g with trial_over := true }, "Trial finished!")

/-- The state component of `show_feedback` (the display message dropped). -/
def Application.show_feedback_state (g : Application) : Application :=
  (g.show_feedback).1

/-- Embedding of `Application.generate_sequence`: next sequence length is
`corsi_span + 1`; regenerate the boxes, enter `ShowSequence`, reset the
click counter.  `none` when box generation runs out of fuel. -/
def Application.generate_sequence (fuel : ℕ) (rands : ℕ → ℕ × ℕ)
    (g : Application) : Option Application :=
  let sequence_length := g.participant.corsi_span + 1
  match Sequence.generate fuel rands sequence_length g.sequence with
  | none => none
  | some s =>
    some { g with
             sequence := s,
             state := AState.ShowSequence,
             participant := { g.participant with clicks := 0 } }

/-- The application state during identification, where
`self.participant` may still be Python `None`. -/
structure IdState where
  state : AState
  participant : Option Participant
  max_participants : ℤ
  deriving DecidableEq, Repr

/-- The message printed by `handle_id_input` on invalid input. -/
def id_error_message (max_participants : ℤ) : String :=
  "Incorrect participant ID. Please type a number between 1 and " ++
    toString max_participants ++ " !"

/-- Embedding of `Application.handle_id_input` at a RETURN key press: `input` is the
result of `int(text)` on the entered text (`none` for the `ValueError`
case).  Returns the new state and the surfaced validation message, if
any. -/
def handle_id_input (input : Option ℤ) (s : IdState) : IdState × Option String :=
  match input with
  | some participant_id =>
    if 1 ≤ participant_id ∧ participant_id ≤ s.max_participants then
      ({ s with
           participant := some (Participant.init participant_id),
           state := AState.Instructions },
        none)
    else (s, some (id_error_message s.max_participants))
  | none => (s, some (id_error_message s.max_participants))

/-! ### Basic preservation lemmas -/

theorem update_statistics_corsi_span (p : Participant) :
    (p.update_statistics).corsi_span = p.corsi_span := rfl

theorem update_statistics_current_trial (p : Participant) :
    (p.update_statistics).current_trial = p.current_trial := rfl

theorem applyStats_trial_over (g : Application) :
    (applyStats g).trial_over = g.trial_over := by
  unfold applyStats; split <;> rfl

theorem applyStats_corsi_span (g : Application) :
    (applyStats g).participant.corsi_span = g.participant.corsi_span := by
  unfold applyStats; split <;> rfl

theorem applyStats_current_trial (g : Application) :
    (applyStats g).participant.current_trial = g.participant.current_trial := by
  unfold applyStats; split <;> rfl

/-- On a correct sequence, `show_feedback` assigns the sequence length to the
participant's span (the only place the span is ever assigned). -/
theorem show_feedback_span_of_correct (g : Application)
    (h : g.sequence.correct = true) :
    (g.show_feedback).1.participant.corsi_span = g.sequence.length := by
  unfold Application.show_feedback
  simp only [h, if_true]
  split <;> simp [applyStats_corsi_span]

/-- On an incorrect sequence, `show_feedback` leaves the span untouched. -/
theorem show_feedback_span_of_not_correct (g : Application)
    (h : g.sequence.correct = false) :
    (g.show_feedback).1.participant.corsi_span = g.participant.corsi_span := by
  unfold Application.show_feedback
  simp only [h, Bool.false_eq_true, if_false]
  split <;> simp [applyStats_corsi_span]

/-- The function `show_feedback` never changes the trial counter. -/
theorem show_feedback_current_trial (g : Application) :
    (g.show_feedback_state).participant.current_trial = g.participant.current_trial := by
  unfold Application.show_feedback_state Application.show_feedback
  split_ifs <;> simp [applyStats_current_trial]

/-- The function `show_feedback` never clears the trial-over flag. -/
theorem show_feedback_trial_over_mono (g : Application)
    (h : g.trial_over = true) :
    (g.show_feedback_state).trial_over = true := by
  unfold Application.show_feedback_state Application.show_feedback
  split_ifs <;> simp [applyStats_trial_over, h]

/-! ### Claims C9, C8, C3, C7 -/

/-- The span history `[2, 3, 3]` of the spec's statistics example, with the
trial counter at 3 so that `update_statistics` recomputes over exactly this
history. -/
def spanHistoryExample : Participant :=
  { Participant.init 7 with current_trial := 3, corsi_spans := [2, 3, 3] }

/-- Claim C9: for the span history `[2, 3, 3]` the statistics update yields
mean `2.67` and population standard deviation `0.47` (both rounded to two
decimal places, the deviation computed from the already-rounded mean). -/
theorem claim9_statistics_values :
    (spanHistoryExample.update_statistics).mean_corsi_span = 267 / 100 ∧
    (spanHistoryExample.update_statistics).std_corsi_span = 47 / 100 := by
  have hfloor : (⌊(8 / 3 * 100 + 1 / 2 : ℚ)⌋ : ℤ) = 267 := by
    rw [Int.floor_eq_iff]; norm_num
  have hsqrt : Nat.sqrt 8889 = 94 := (Nat.eq_sqrt'.mpr (by norm_num)).symm
  constructor
  · simp only [Participant.update_statistics, spanHistoryExample, round2]
    norm_num [hfloor]
  · simp only [Participant.update_statistics, spanHistoryExample, round2, round2sqrt]
    norm_num [hfloor]
    rw [show Int.toNat 8889 = 8889 from rfl, hsqrt]
    norm_num

/-- Claim C8: an identifier is accepted exactly when it parses as an integer
in `[1, maxParticipants]`; acceptance creates the participant and moves to
`Instructions` with no message, any other input leaves the whole state
unchanged and surfaces the validation message. -/
theorem claim8_id_validation (input : Option ℤ) (s : IdState) :
    (∀ pid, input = some pid → 1 ≤ pid → pid ≤ s.max_participants →
      handle_id_input input s =
        ({ s with
             participant := some (Participant.init pid),
             state := AState.Instructions },
          none)) ∧
    ((∀ pid, input = some pid → ¬(1 ≤ pid ∧ pid ≤ s.max_participants)) →
      handle_id_input input s = (s, some (id_error_message s.max_participants))) := by
  constructor
  · intro pid hin h1 h2
    subst hin
    simp [handle_id_input, h1, h2]
  · intro hrej
    match hin : input with
    | none => simp [handle_id_input]
    | some pid =>
      simp [handle_id_input, hrej pid rfl]

/-- The identification state used to witness claim C8 (`maxParticipants = 20`,
no participant yet). -/
def idStateW : IdState where
  state := AState.Participant_ID
  participant := none
  max_participants := 20

/-- Witness for C8: id 5 is accepted (Scenario A), id 25 is rejected with the
state unchanged (Scenario B). -/
theorem claim8_id_validation_witness :
    handle_id_input (some 5) idStateW =
      ({ idStateW with
           participant := some (Participant.init 5),
           state := AState.Instructions },
        none) ∧
    handle_id_input (some 25) idStateW = (idStateW, some (id_error_message 20)) := by
  constructor
  · exact (claim8_id_validation (some 5) idStateW).1 5 rfl (by norm_num)
      (by norm_num [idStateW])
  · exact (claim8_id_validation (some 25) idStateW).2
      (fun pid h => by cases h; decide)

/-- Claim C3: the feedback message is the win message exactly when the last
sequence was correct and its length equals the configured box count, and in
that case the trial-over flag is set. -/
theorem claim3_win_iff_full_length_correct (g : Application) :
    ((g.show_feedback).2 = "Congratulations! You won!" ↔
      (g.sequence.correct = true ∧
        g.sequence.length = g.sequence.box_parameters.n_boxes)) ∧
    (g.sequence.correct = true →
      g.sequence.length = g.sequence.box_parameters.n_boxes →
      (g.show_feedback).1.trial_over = true) := by
  unfold Application.show_feedback
  split_ifs with h1 h2
  · refine ⟨⟨fun _ => ⟨h1, h2⟩, fun _ => rfl⟩, fun _ _ => ?_⟩
    simp [applyStats_trial_over]
  · refine ⟨⟨fun hmsg => ?_, ?_⟩, ?_⟩
    · exact absurd
        (show ("Great job!" : String) = "Congratulations! You won!" from hmsg)
        (by decide)
    · rintro ⟨-, hlen⟩; exact absurd hlen h2
    · intro _ hlen; exact absurd hlen h2
  · refine ⟨⟨fun hmsg => ?_, ?_⟩, ?_⟩
    · exact absurd
        (show ("One more try!" : String) = "Congratulations! You won!" from hmsg)
        (by decide)
    · rintro ⟨hc, -⟩; exact absurd hc h1
    · intro hc _; exact absurd hc h1
  · refine ⟨⟨fun hmsg => ?_, ?_⟩, ?_⟩
    · exact absurd
        (show ("Trial finished!" : String) = "Congratulations! You won!" from hmsg)
        (by decide)
    · rintro ⟨hc, -⟩; exact absurd hc h1
    · intro hc _; exact absurd hc h1

/-- Witness for C3: a concrete feedback state with a correct sequence of
full length 3 yields the win message. -/
def winApp : Application where
  state := AState.Feedback
  participant := Participant.init 1
  sequence :=
    { screen_size := (800, 600)
      box_parameters := ⟨3, 50, 100, 1, 75⟩
      length := 3
      highlight_box_id := 3
      last_box_highlighted := 0
      boxes := []
      correct := true }
  max_trials := 3
  trial_over := false
  max_participants := 20
  start_delay := 1
  trial_start := 0

/-- Witness for C3 at `winApp`. -/
theorem claim3_win_iff_full_length_correct_witness :
    (winApp.show_feedback).2 = "Congratulations! You won!" ∧
    (winApp.show_feedback).1.trial_over = true := by
  refine ⟨(claim3_win_iff_full_length_correct winApp).1.mpr ⟨rfl, rfl⟩, ?_⟩
  exact (claim3_win_iff_full_length_correct winApp).2 rfl rfl

/-- Claim C7: the presentation step is a no-op (state unchanged, same
signalled next state) while the start delay has not elapsed, and likewise on
any repeated call within the current dwell interval, i.e. once some box has
been highlighted (`highlight_box_id ≥ 1`) and the time since the last
highlight does not exceed the per-box highlight duration. -/
theorem claim7_show_idempotent (s : SeqState) (trial_start start_delay now : ℚ) :
    (now - trial_start ≤ start_delay →
      Sequence.show s trial_start start_delay now = (AState.ShowSequence, s)) ∧
    (1 ≤ s.highlight_box_id →
      now - s.last_box_highlighted ≤ s.box_parameters.t_highlight →
      Sequence.show s trial_start start_delay now = (AState.ShowSequence, s)) := by
  constructor
  · intro h
    unfold Sequence.show
    rw [if_neg (not_lt.mpr h)]
  · intro hid hdwell
    unfold Sequence.show
    by_cases hd : now - trial_start > start_delay
    · rw [if_pos hd, if_neg (by omega : ¬s.highlight_box_id = 0),
        if_neg (not_lt.mpr hdwell)]
    · rw [if_neg hd]

/-- A mid-presentation sequence state used to witness claim C7. -/
def showSeqW : SeqState where
  screen_size := (800, 600)
  box_parameters := ⟨3, 50, 100, 1, 75⟩
  length := 3
  highlight_box_id := 1
  last_box_highlighted := 2
  boxes := [{ Box.init (100, 100) 50 with highlight := true },
            Box.init (300, 100) 50, Box.init (500, 100) 50]
  correct := false

/-- Witness for C7: with the first box highlighted at time 2 and dwell time
1, a call at time 5/2 changes nothing; a call before the start delay has
elapsed (start at 0, delay 1, now 1/2) also changes nothing. -/
theorem claim7_show_idempotent_witness :
    Sequence.show showSeqW 0 1 (5 / 2) = (AState.ShowSequence, showSeqW) ∧
    Sequence.show showSeqW 0 1 (1 / 2) = (AState.ShowSequence, showSeqW) := by
  constructor
  · exact (claim7_show_idempotent showSeqW 0 1 (5 / 2)).2 (by decide)
      (by norm_num [showSeqW])
  · exact (claim7_show_idempotent showSeqW 0 1 (1 / 2)).1 (by norm_num)

/-! ### Claims C1, C5, C6 -/

theorem processAt_corsi_span (pos : ℤ × ℤ) (i : ℕ) (g : Application) :
    (processAt pos i g).participant.corsi_span = g.participant.corsi_span := by
  unfold processAt
  split
  · rfl
  · split_ifs <;> rfl

theorem hui_loop_corsi_span (pos : ℤ × ℤ) :
    ∀ fuel i g, (hui_loop pos fuel i g).participant.corsi_span =
      g.participant.corsi_span := by
  intro fuel
  induction fuel with
  | zero => intro i g; rfl
  | succ fuel ih =>
    intro i g
    rw [hui_loop, ih, processAt_corsi_span]

/-- On an incorrect sequence with the error counter at 2, `show_feedback`
sets the trial-over flag. -/
theorem show_feedback_trial_over_of_two_errors (g : Application)
    (hc : g.sequence.correct = false) (he : g.participant.errors = 2) :
    (g.show_feedback).1.trial_over = true := by
  unfold Application.show_feedback
  simp only [hc, Bool.false_eq_true, if_false]
  rw [if_neg (by omega : ¬g.participant.errors = 1)]
  simp [applyStats_trial_over]

/-- Claim C1: the span is never assigned while collecting input, an
incorrect sequence leaves the span untouched in feedback, an incorrect
sequence with the error counter at 2 sets the trial-over flag, and the only
assignment to the span is the length of a correctly reproduced sequence.
Hence two consecutive failures end the trial with the span still equal to
the last successfully completed length. -/
theorem claim1_staircase_two_errors :
    (∀ (pos : ℤ × ℤ) (g : Application),
        (Application.handle_user_input pos g).participant.corsi_span =
          g.participant.corsi_span) ∧
    (∀ g : Application, g.sequence.correct = false →
        (g.show_feedback).1.participant.corsi_span = g.participant.corsi_span) ∧
    (∀ g : Application, g.sequence.correct = false → g.participant.errors = 2 →
        (g.show_feedback).1.trial_over = true) ∧
    (∀ g : Application, g.sequence.correct = true →
        (g.show_feedback).1.participant.corsi_span = g.sequence.length) := by
  refine ⟨fun pos g => ?_, show_feedback_span_of_not_correct,
    show_feedback_trial_over_of_two_errors, show_feedback_span_of_correct⟩
  unfold Application.handle_user_input
  exact hui_loop_corsi_span pos _ 0 g

/-- A feedback state after the second consecutive failure at length 5
(span 4), used to witness claims C1 and C5. -/
def failApp : Application where
  state := AState.Feedback
  participant :=
    { Participant.init 1 with corsi_span := 4, errors := 2 }
  sequence :=
    { screen_size := (800, 600)
      box_parameters := ⟨9, 50, 100, 1, 75⟩
      length := 5
      highlight_box_id := 5
      last_box_highlighted := 0
      boxes := []
      correct := false }
  max_trials := 3
  trial_over := false
  max_participants := 20
  start_delay := 1
  trial_start := 0

/-- Witness for C1: at `failApp` (second failure at length 5, span 4) the
feedback ends the trial and keeps the span at 4; a click never moves the
span; at `winApp` a correct sequence assigns its length to the span. -/
theorem claim1_staircase_two_errors_witness :
    (failApp.handle_user_input (100, 100)).participant.corsi_span = 4 ∧
    (failApp.show_feedback).1.participant.corsi_span = 4 ∧
    (failApp.show_feedback).1.trial_over = true ∧
    (winApp.show_feedback).1.participant.corsi_span = 3 := by
  refine ⟨(claim1_staircase_two_errors.1 (100, 100) failApp).trans rfl,
    (claim1_staircase_two_errors.2.1 failApp rfl).trans rfl,
    claim1_staircase_two_errors.2.2.1 failApp rfl rfl,
    (claim1_staircase_two_errors.2.2.2 winApp rfl).trans rfl⟩

theorem applyStats_spans_len_append (g : Application)
    (hov : (applyStats g).trial_over = true)
    (h : (g.participant.corsi_spans.length : ℤ) < g.participant.current_trial) :
    (applyStats g).participant.corsi_spans.length =
      g.participant.corsi_spans.length + 1 := by
  rw [applyStats_trial_over] at hov
  unfold applyStats
  simp only [hov, if_true, Participant.update_statistics, h]
  simp

theorem applyStats_spans_of_not_lt (g : Application)
    (h : ¬((g.participant.corsi_spans.length : ℤ) < g.participant.current_trial)) :
    (applyStats g).participant.corsi_spans = g.participant.corsi_spans := by
  unfold applyStats
  split
  · simp only [Participant.update_statistics, h]
    simp
  · rfl

/-- When the trial ends at this feedback and the history is one entry
short, exactly one entry is appended. -/
theorem show_feedback_spans_len_append (g : Application)
    (hov : (g.show_feedback_state).trial_over = true)
    (h : (g.participant.corsi_spans.length : ℤ) < g.participant.current_trial) :
    (g.show_feedback_state).participant.corsi_spans.length =
      g.participant.corsi_spans.length + 1 := by
  unfold Application.show_feedback_state Application.show_feedback at hov ⊢
  split_ifs at hov ⊢ <;> exact applyStats_spans_len_append _ hov h

/-- When the history already has one entry per trial, re-running the
feedback appends nothing. -/
theorem show_feedback_spans_preserved (g : Application)
    (h : ¬((g.participant.corsi_spans.length : ℤ) < g.participant.current_trial)) :
    (g.show_feedback_state).participant.corsi_spans = g.participant.corsi_spans := by
  unfold Application.show_feedback_state Application.show_feedback
  split_ifs <;> exact applyStats_spans_of_not_lt _ h

theorem iterate_show_feedback_spans_len (m : ℕ) :
    ∀ g : Application, g.trial_over = true →
      (g.participant.corsi_spans.length : ℤ) = g.participant.current_trial →
      (((Application.show_feedback_state)^[m] g).participant.corsi_spans.length : ℤ) =
        g.participant.current_trial := by
  induction m with
  | zero => intro g _ h2; simpa using h2
  | succ m ih =>
    intro g h1 h2
    rw [Function.iterate_succ_apply]
    have hov := show_feedback_trial_over_mono g h1
    have hsp := show_feedback_spans_preserved g (by omega)
    have htr := show_feedback_current_trial g
    have hr := ih (g.show_feedback_state) hov (by rw [hsp, htr]; exact h2)
    rw [hr, htr]

/-- Claim C5: when a trial ends at this feedback (the trial-over flag comes
out set) and the span history is one entry short of the trial counter, then
after any positive number of repeated executions of the feedback routine the
history length equals the trial counter — the achieved span is appended
exactly once. -/
theorem claim5_history_appended_once (g : Application) (n : ℕ)
    (h1 : (g.participant.corsi_spans.length : ℤ) + 1 = g.participant.current_trial)
    (h2 : (g.show_feedback_state).trial_over = true)
    (hn : 1 ≤ n) :
    (((Application.show_feedback_state)^[n] g).participant.corsi_spans.length : ℤ) =
      g.participant.current_trial := by
  obtain ⟨m, rfl⟩ : ∃ m, n = m + 1 := ⟨n - 1, by omega⟩
  rw [Function.iterate_succ_apply]
  have hlen1 := show_feedback_spans_len_append g h2 (by omega)
  have htr := show_feedback_current_trial g
  have hr := iterate_show_feedback_spans_len m (g.show_feedback_state) h2
    (by rw [hlen1, htr]; push_cast; omega)
  rw [hr, htr]

/-- Witness for C5 at `failApp` (history empty, trial counter 1, trial ends
at this feedback), iterated three times. -/
theorem claim5_history_appended_once_witness :
    (((Application.show_feedback_state)^[3] failApp).participant.corsi_spans.length : ℤ) =
      failApp.participant.current_trial :=
  claim5_history_appended_once failApp 3 (by decide) (by decide) (by decide)

/-- Claim C6: a newly generated sequence has length `corsi_span + 1`; after
a successful attempt the span becomes the just-completed length (so the next
tested length strictly increases), and after a failed attempt the span — and
hence the next tested length — is unchanged. -/
theorem claim6_next_span_length :
    (∀ fuel rands g g', Application.generate_sequence fuel rands g = some g' →
        g'.sequence.length = g.participant.corsi_span + 1) ∧
    (∀ g : Application, g.sequence.correct = true →
        (g.show_feedback).1.participant.corsi_span = g.sequence.length ∧
        g.sequence.length < (g.show_feedback).1.participant.corsi_span + 1) ∧
    (∀ g : Application, g.sequence.correct = false →
        (g.show_feedback).1.participant.corsi_span = g.participant.corsi_span) := by
  refine ⟨?_, ?_, show_feedback_span_of_not_correct⟩
  · intro fuel rands g g' h
    unfold Application.generate_sequence at h
    dsimp only at h
    cases hg : Sequence.generate fuel rands (g.participant.corsi_span + 1) g.sequence with
    | none => rw [hg] at h; exact absurd h (by simp)
    | some s =>
      rw [hg] at h
      cases h
      unfold Sequence.generate at hg
      cases hb : generate_boxes fuel rands g.sequence.screen_size
          g.sequence.box_parameters with
      | none => rw [hb] at hg; exact absurd hg (by simp)
      | some bs => rw [hb] at hg; cases hg; rfl
  · intro g h
    have := show_feedback_span_of_correct g h
    exact ⟨this, by omega⟩

/-! ### Claims C10 and C4 -/

/-- Number of boxes currently marked clicked. -/
def countClicked (bs : List Box) : ℕ := (bs.filter (fun b => b.clicked)).length

theorem countClicked_clear (bs : List Box) :
    countClicked (bs.map (fun box_ => { box_ with clicked := false })) = 0 := by
  induction bs with
  | nil => rfl
  | cons b bs ih => simp [countClicked, List.filter_cons]

theorem countClicked_modify_le (bs : List Box) (i : ℕ) (f : Box → Box) :
    countClicked (modifyBox bs i f) ≤ countClicked bs + 1 := by
  induction bs generalizing i with
  | nil => simp [modifyBox, countClicked]
  | cons b bs ih =>
    cases i with
    | zero =>
      simp only [modifyBox, countClicked, List.filter_cons]
      split_ifs
      all_goals try simp only [List.length_cons]
      all_goals omega
    | succ n =>
      have := ih n
      simp only [modifyBox, countClicked, List.filter_cons] at this ⊢
      split_ifs
      all_goals try simp only [List.length_cons] at this ⊢
      all_goals omega

theorem processAt_count (pos : ℤ × ℤ) (i : ℕ) (g : Application)
    (h : countClicked g.sequence.boxes ≤ 1) :
    countClicked (processAt pos i g).sequence.boxes ≤ 1 := by
  have key : ∀ f : Box → Box,
      countClicked (modifyBox
        (g.sequence.boxes.map (fun box_ => { box_ with clicked := false })) i f) ≤ 1 := by
    intro f
    have hb := countClicked_modify_le
      (g.sequence.boxes.map (fun box_ => { box_ with clicked := false })) i f
    rw [countClicked_clear] at hb
    exact hb
  unfold processAt
  split
  · exact h
  · split_ifs <;> first | exact h | exact key _

theorem hui_loop_count (pos : ℤ × ℤ) :
    ∀ (fuel i : ℕ) (g : Application), countClicked g.sequence.boxes ≤ 1 →
      countClicked (hui_loop pos fuel i g).sequence.boxes ≤ 1 := by
  intro fuel
  induction fuel with
  | zero => intro i g h; exact h
  | succ fuel ih =>
    intro i g h
    rw [hui_loop]
    exact ih (i + 1) _ (processAt_count pos i g h)

/-- Claim C10: every click event first clears the clicked flag of every box
and then marks at most one box, so "at most one box is marked clicked" is an
invariant of input collection. -/
theorem claim10_at_most_one_clicked (g : Application) (pos : ℤ × ℤ)
    (h : countClicked g.sequence.boxes ≤ 1) :
    countClicked ((g.handle_user_input pos).sequence.boxes) ≤ 1 := by
  unfold Application.handle_user_input
  exact hui_loop_count pos _ 0 g h

/-- A fresh input-collection state with three boxes in a row, used for the
click-handling witnesses and the C4 counterexample. -/
def clickApp : Application where
  state := AState.UserInput
  participant := Participant.init 1
  sequence :=
    { screen_size := (800, 600)
      box_parameters := ⟨3, 50, 100, 1, 75⟩
      length := 3
      highlight_box_id := 3
      last_box_highlighted := 0
      boxes := [Box.init (100, 100) 50, Box.init (300, 100) 50, Box.init (500, 100) 50]
      correct := false }
  max_trials := 3
  trial_over := false
  max_participants := 20
  start_delay := 1
  trial_start := 0

/-- Witness for C10 at `clickApp` after a click on the first box. -/
theorem claim10_at_most_one_clicked_witness :
    countClicked ((clickApp.handle_user_input (100, 100)).sequence.boxes) ≤ 1 :=
  claim10_at_most_one_clicked clickApp (100, 100) (by decide)

/-- Counterexample to C4 as stated: box 0 is marked clicked at an earlier
point of the attempt (after the first click), but clicking it again after
box 1 has been clicked does NOT leave the state unchanged — its clicked
mark was cleared in between, so the click is re-scored: the error counter
rises from 0 to 1 and the state moves to `Feedback`. -/
theorem claim4_reclick_changes_state_cex :
    (clickApp.handle_user_input (100, 100)).sequence.boxes.map Box.clicked =
        [true, false, false] ∧
    ((clickApp.handle_user_input (100, 100)).handle_user_input (300, 100)).sequence.boxes.map
        Box.clicked = [false, true, false] ∧
    ((clickApp.handle_user_input (100, 100)).handle_user_input (300, 100)).participant.errors
        = 0 ∧
    (((clickApp.handle_user_input (100, 100)).handle_user_input (300, 100)).handle_user_input
        (100, 100)).participant.errors = 1 ∧
    (((clickApp.handle_user_input (100, 100)).handle_user_input (300, 100)).handle_user_input
        (100, 100)).state = AState.Feedback ∧
    ((clickApp.handle_user_input (100, 100)).handle_user_input (300, 100)).state =
        AState.UserInput := by
  decide

/-- Claim C4 (amended): if the click position hits no box whose clicked flag
is currently clear, the click is a complete no-op; in particular a click
whose only hit is the box currently marked clicked changes nothing. -/
theorem claim4_no_unclicked_hit_is_noop (g : Application) (pos : ℤ × ℤ)
    (h : ∀ b ∈ g.sequence.boxes,
      ¬(b.rect_collidepoint pos = true ∧ b.clicked = false)) :
    g.handle_user_input pos = g := by
  have hstep : ∀ i, processAt pos i g = g := by
    intro i
    unfold processAt
    cases hb : g.sequence.boxes.get? i with
    | none => rfl
    | some box =>
      have hmem : box ∈ g.sequence.boxes := List.get?_mem hb
      have hcond := h box hmem
      dsimp only
      rw [if_neg]
      simp only [Bool.and_eq_true, Bool.not_eq_true']
      exact fun hc => hcond ⟨hc.1, hc.2⟩
  have hloop : ∀ fuel i, hui_loop pos fuel i g = g := by
    intro fuel
    induction fuel with
    | zero => intro i; rfl
    | succ fuel ih => intro i; rw [hui_loop, hstep i]; exact ih (i + 1)
  unfold Application.handle_user_input
  exact hloop _ 0

/-- Witness for the amended C4: at the state reached after correctly
clicking box 0 of `clickApp`, a second click on the same (still-marked)
box 0 leaves the application state unchanged. -/
theorem claim4_no_unclicked_hit_is_noop_witness :
    (clickApp.handle_user_input (100, 100)).handle_user_input (100, 100) =
      clickApp.handle_user_input (100, 100) :=
  claim4_no_unclicked_hit_is_noop (clickApp.handle_user_input (100, 100)) (100, 100)
    (by decide)

/-! ### Claim C2 and the generation witnesses -/

theorem randint_mem (a b : ℤ) (r : ℕ) (hab : a ≤ b) :
    a ≤ randint a b r ∧ randint a b r ≤ b := by
  unfold randint
  have hne : b - a + 1 ≠ 0 := by omega
  have hpos : 0 < b - a + 1 := by omega
  have h1 := Int.emod_nonneg (r : ℤ) hne
  have h2 := Int.emod_lt_of_pos (r : ℤ) hpos
  omega

/-- Loop invariant of `generate_boxes_aux`: the accepted boxes number `i`,
remain at most `n_boxes`, lie in the margin-inset region, and are pairwise
collision-free; on termination all three closing properties hold. -/
theorem generate_boxes_aux_spec (ss : ℤ × ℤ) (bp : BoxParams) (rands : ℕ → ℕ × ℕ)
    (hmx : bp.margin ≤ ss.1 - bp.margin) (hmy : bp.margin ≤ ss.2 - bp.margin) :
    ∀ (fuel t : ℕ) (i : ℤ) (boxes bs : List Box),
      generate_boxes_aux ss bp rands fuel t i boxes = some bs →
      i = (boxes.length : ℤ) → (boxes.length : ℤ) ≤ bp.n_boxes →
      (∀ b ∈ boxes, bp.margin ≤ b.pos.1 ∧ b.pos.1 ≤ ss.1 - bp.margin ∧
        bp.margin ≤ b.pos.2 ∧ b.pos.2 ≤ ss.2 - bp.margin) →
      List.Pairwise (fun b c => collision_check bp c b = false) boxes →
      (bs.length : ℤ) = bp.n_boxes ∧
      (∀ b ∈ bs, bp.margin ≤ b.pos.1 ∧ b.pos.1 ≤ ss.1 - bp.margin ∧
        bp.margin ≤ b.pos.2 ∧ b.pos.2 ≤ ss.2 - bp.margin) ∧
      List.Pairwise (fun b c => collision_check bp c b = false) bs := by
  intro fuel
  induction fuel with
  | zero =>
    intro t i boxes bs h
    exact absurd h (by simp [generate_boxes_aux])
  | succ fuel ih =>
    intro t i boxes bs h hi hle hin hpw
    rw [generate_boxes_aux] at h
    by_cases hcnt : i < bp.n_boxes
    · rw [if_pos hcnt] at h
      dsimp only at h
      by_cases hcoll : (boxes.any fun box => collision_check bp
          (Box.init (randint bp.margin (ss.1 - bp.margin) (rands t).1,
            randint bp.margin (ss.2 - bp.margin) (rands t).2) bp.size) box) = true
      · rw [if_pos hcoll] at h
        exact ih (t + 1) i boxes bs h hi hle hin hpw
      · rw [if_neg hcoll] at h
        refine ih (t + 1) (i + 1) _ bs h ?_ ?_ ?_ ?_
        · simp [hi]
        · simp only [List.length_append, List.length_cons, List.length_nil]
          push_cast
          omega
        · intro b hb
          rcases List.mem_append.mp hb with hb | hb
          · exact hin b hb
          · have hb' : b = Box.init (randint bp.margin (ss.1 - bp.margin) (rands t).1,
                randint bp.margin (ss.2 - bp.margin) (rands t).2) bp.size :=
              List.mem_singleton.mp hb
            subst hb'
            have hx := randint_mem bp.margin (ss.1 - bp.margin) (rands t).1 hmx
            have hy := randint_mem bp.margin (ss.2 - bp.margin) (rands t).2 hmy
            exact ⟨hx.1, hx.2, hy.1, hy.2⟩
        · rw [List.pairwise_append]
          refine ⟨hpw, List.pairwise_singleton _ _, ?_⟩
          intro a ha c hc
          have hc' : c = Box.init (randint bp.margin (ss.1 - bp.margin) (rands t).1,
              randint bp.margin (ss.2 - bp.margin) (rands t).2) bp.size :=
            List.mem_singleton.mp hc
          subst hc'
          simp only [List.any_eq_true, not_exists, not_and] at hcoll
          exact Bool.not_eq_true _ |>.mp (hcoll a ha)
    · rw [if_neg hcnt] at h
      obtain rfl : boxes = bs := Option.some.inj h
      exact ⟨by omega, hin, hpw⟩

/-- Claim C2: any layout returned by `generate_boxes` has exactly `n_boxes`
boxes, every center inside `[margin, dim - margin]` on both axes, and every
pair of distinct boxes at Euclidean center distance at least `min_dist`.
The margin feasibility hypotheses are the precondition of
`random.randint(margin, dim - margin)`. -/
theorem claim2_generate_boxes_spec (fuel : ℕ) (rands : ℕ → ℕ × ℕ)
    (screen_size : ℤ × ℤ) (bp : BoxParams) (bs : List Box)
    (hgen : generate_boxes fuel rands screen_size bp = some bs)
    (hmx : bp.margin ≤ screen_size.1 - bp.margin)
    (hmy : bp.margin ≤ screen_size.2 - bp.margin)
    (hn : 0 ≤ bp.n_boxes) (hmd : 0 ≤ bp.min_dist) :
    (bs.length : ℤ) = bp.n_boxes ∧
    (∀ b ∈ bs, bp.margin ≤ b.pos.1 ∧ b.pos.1 ≤ screen_size.1 - bp.margin ∧
      bp.margin ≤ b.pos.2 ∧ b.pos.2 ≤ screen_size.2 - bp.margin) ∧
    List.Pairwise (fun b c => (bp.min_dist : ℝ) ≤
      Real.sqrt (((b.pos.1 : ℝ) - (c.pos.1 : ℝ)) ^ 2 +
        ((b.pos.2 : ℝ) - (c.pos.2 : ℝ)) ^ 2)) bs := by
  obtain ⟨h1, h2, h3⟩ := generate_boxes_aux_spec screen_size bp rands hmx hmy
    fuel 0 0 [] bs hgen (by simp) (by simpa using hn) (by simp) List.Pairwise.nil
  refine ⟨h1, h2, h3.imp ?_⟩
  intro b c hcc
  have hq : bp.min_dist ^ 2 ≤
      ((c.pos.1 - b.pos.1 : ℤ) : ℚ) ^ 2 + ((c.pos.2 - b.pos.2 : ℤ) : ℚ) ^ 2 := by
    unfold collision_check at hcc
    dsimp only at hcc
    by_contra hlt
    rw [if_pos (lt_of_not_le hlt)] at hcc
    exact Bool.noConfusion hcc
  have hr : (bp.min_dist : ℝ) ^ 2 ≤
      ((b.pos.1 : ℝ) - (c.pos.1 : ℝ)) ^ 2 + ((b.pos.2 : ℝ) - (c.pos.2 : ℝ)) ^ 2 := by
    have hq' := (Rat.cast_le (K := ℝ)).mpr hq
    push_cast at hq'
    nlinarith [hq']
  have hmd' : (0 : ℝ) ≤ (bp.min_dist : ℝ) := by exact_mod_cast hmd
  calc (bp.min_dist : ℝ) = Real.sqrt ((bp.min_dist : ℝ) ^ 2) :=
        (Real.sqrt_sq hmd').symm
    _ ≤ Real.sqrt (((b.pos.1 : ℝ) - (c.pos.1 : ℝ)) ^ 2 +
          ((b.pos.2 : ℝ) - (c.pos.2 : ℝ)) ^ 2) := Real.sqrt_le_sqrt hr

/-- Parameters for the concrete generation witnesses: two boxes of size 50,
minimum distance 100, margin 75 on a 800 × 600 canvas. -/
def wBP : BoxParams := ⟨2, 50, 100, 1, 75⟩

/-- A deterministic raw-draw stream: the `t`-th candidate is `(200·t, 0)`. -/
def wRands : ℕ → ℕ × ℕ := fun t => (200 * t, 0)

/-- The layout `generate_boxes` produces from `wRands` under `wBP`. -/
def wBoxes : List Box := [Box.init (75, 75) 50, Box.init (275, 75) 50]

/-- Witness for C2: the concrete run produces exactly this two-box layout,
and the three layout properties hold of it. -/
theorem claim2_generate_boxes_spec_witness :
    generate_boxes 3 wRands (800, 600) wBP = some wBoxes ∧
    (wBoxes.length : ℤ) = wBP.n_boxes ∧
    (∀ b ∈ wBoxes, wBP.margin ≤ b.pos.1 ∧ b.pos.1 ≤ 800 - wBP.margin ∧
      wBP.margin ≤ b.pos.2 ∧ b.pos.2 ≤ 600 - wBP.margin) ∧
    List.Pairwise (fun b c => (wBP.min_dist : ℝ) ≤
      Real.sqrt (((b.pos.1 : ℝ) - (c.pos.1 : ℝ)) ^ 2 +
        ((b.pos.2 : ℝ) - (c.pos.2 : ℝ)) ^ 2)) wBoxes := by
  have hgen : generate_boxes 3 wRands (800, 600) wBP = some wBoxes := by
    norm_num [generate_boxes, generate_boxes_aux, wRands, wBP, wBoxes, randint,
      collision_check, Box.init]
  obtain ⟨h1, h2, h3⟩ := claim2_generate_boxes_spec 3 wRands (800, 600) wBP wBoxes
    hgen (by norm_num [wBP]) (by norm_num [wBP]) (by norm_num [wBP]) (by norm_num [wBP])
  exact ⟨hgen, h1, h2, h3⟩

/-- A feedback state with span 1 about to generate the next sequence, used
to witness claim C6. -/
def genApp : Application where
  state := AState.Feedback
  participant := { Participant.init 1 with corsi_span := 1 }
  sequence :=
    { screen_size := (800, 600)
      box_parameters := wBP
      length := 0
      highlight_box_id := 0
      last_box_highlighted := 0
      boxes := []
      correct := false }
  max_trials := 3
  trial_over := false
  max_participants := 20
  start_delay := 1
  trial_start := 0

/-- The state `generate_sequence` produces from `genApp` with `wRands`. -/
def genAppNext : Application :=
  { genApp with
      state := AState.ShowSequence,
      participant := { genApp.participant with clicks := 0 },
      sequence :=
        { genApp.sequence with length := 2, boxes := wBoxes, highlight_box_id := 0 } }

/-- Witness for C6: the generated sequence has length `corsi_span + 1 = 2`;
at `winApp` the span becomes the completed length, at `failApp` the failed
attempt leaves the span unchanged. -/
theorem claim6_next_span_length_witness :
    genAppNext.sequence.length = genApp.participant.corsi_span + 1 ∧
    (winApp.show_feedback).1.participant.corsi_span = winApp.sequence.length ∧
    (failApp.show_feedback).1.participant.corsi_span = failApp.participant.corsi_span := by
  refine ⟨claim6_next_span_length.1 3 wRands genApp genAppNext ?_,
    (claim6_next_span_length.2.1 winApp rfl).1,
    claim6_next_span_length.2.2 failApp rfl⟩
  norm_num [Application.generate_sequence, Sequence.generate, generate_boxes,
    generate_boxes_aux, wRands, wBP, wBoxes, randint, collision_check, Box.init,
    genApp, genAppNext, Participant.init]

end Corsi
